import Mathlib

/-!
Shallow embedding of the jira-mcp-server tool handlers (src/unnamed/part_001).

The handlers are JavaScript methods on a server class; every remote call goes
through `makeJiraRequest`.  We embed each handler as a pure Lean function that
takes the data a remote fetch would have returned (issue-type catalog,
transition list) as an argument and returns either the error message the JS
code would `throw` (`Except.error`) or the payload the JS code would submit to
the remote endpoint (`Except.ok`).  An `Except.error` result therefore means
the handler throws before the mutating request is issued.

JavaScript values that flow through the handlers (JSON from the remote system,
payload objects being built) are modelled by `JSVal`, which includes
`undefined` since property access on a missing key yields it.  JS semantics
that matter here are modelled explicitly: truthiness, strict equality against
a string literal, property access (a `TypeError` on `null`/`undefined`
receivers), `for..of` iteration (a `TypeError` on non-iterables), string
coercion by `+`, `String.prototype.trim`, and `toLowerCase` (ASCII).
Object literals keep their key-insertion order as an association list.
-/

/-- JavaScript runtime values (the JSON universe plus `undefined`).
Numbers are modelled as integers: every numeric literal in the embedded
code paths is an integer and no arithmetic is performed on them. -/
inductive JSVal where
  | undefined : JSVal
  | null : JSVal
  | bool : Bool → JSVal
  | num : Int → JSVal
  | str : String → JSVal
  | arr : List JSVal → JSVal
  | obj : List (String × JSVal) → JSVal
deriving Repr

/-- The only JS exception the embedded code can raise by itself:
a `TypeError` from property access on `null`/`undefined` or from
`for..of` over a non-iterable. -/
inductive JSErr where
  | typeError : JSErr
deriving Repr, DecidableEq

/-- JS truthiness.  `undefined`, `null`, `false`, `0` and `""` are falsy;
every object and every array (including `[]`) is truthy. -/
def truthy : JSVal → Bool
  | .undefined => false
  | .null => false
  | .bool b => b
  | .num n => n != 0
  | .str s => s != ""
  | .arr _ => true
  | .obj _ => true

/-- Property access `v.k` on a receiver that is not `null`/`undefined`:
object lookup by key (first binding wins), `undefined` for a missing key
and for every non-object receiver (none of the accessed names — `type`,
`content`, `text` — exists on strings, numbers, booleans or arrays). -/
def getField (v : JSVal) (k : String) : JSVal :=
  match v with
  | .obj fields =>
    match fields.find? (fun p => p.1 == k) with
    | some p => p.2
    | none => .undefined
  | _ => .undefined

/-- Strict equality `v === lit` against a string literal. -/
def strictEqStr (v : JSVal) (lit : String) : Bool :=
  match v with
  | .str s => s == lit
  | _ => false

/-- Iteration by `for..of`: arrays yield their elements, strings yield their
characters as one-character strings, everything else raises `TypeError`. -/
def jsIter (v : JSVal) : Except JSErr (List JSVal) :=
  match v with
  | .arr xs => .ok xs
  | .str s => .ok (s.toList.map (fun c => .str (String.mk [c])))
  | _ => .error .typeError

mutual

/-- JS `String(v)` as used by string concatenation `text += v`. -/
def jsToString : JSVal → String
  | .undefined => "undefined"
  | .null => "null"
  | .bool true => "true"
  | .bool false => "false"
  | .num n => toString n
  | .str s => s
  | .arr xs => String.intercalate "," (jsToStringElems xs)
  | .obj _ => "[object Object]"

/-- Element conversion of `Array.prototype.join` with a comma separator:
`null` and `undefined` become the empty string. -/
def jsToStringElems : List JSVal → List String
  | [] => []
  | .undefined :: rest => "" :: jsToStringElems rest
  | .null :: rest => "" :: jsToStringElems rest
  | v :: rest => jsToString v :: jsToStringElems rest

end

/-- The whitespace characters removed by `String.prototype.trim`
(ECMA-262 WhiteSpace and LineTerminator code points). -/
def jsWhitespace (c : Char) : Bool :=
  c == ' ' || c == '\t' || c == '\n' || c == '\r' ||
  c == '\u000B' || c == '\u000C' || c == '\u00A0' || c == '\u1680' ||
  ('\u2000' ≤ c && c ≤ '\u200A') || c == '\u2028' || c == '\u2029' ||
  c == '\u202F' || c == '\u205F' || c == '\u3000' || c == '\uFEFF'

/-- Model of `String.prototype.trim` on the character list. -/
def jsTrimList (l : List Char) : List Char :=
  ((l.dropWhile jsWhitespace).reverse.dropWhile jsWhitespace).reverse

/-- Model of `String.prototype.trim`. -/
def jsTrim (s : String) : String :=
  String.mk (jsTrimList s.data)

/-- Model of `String.prototype.toLowerCase` (ASCII letters; every name
compared case-insensitively in the embedded handlers is ASCII or caseless). -/
def jsToLower (s : String) : String :=
  String.mk (s.data.map Char.toLower)

/-- Body of the inner loop of `extractDescription`: for each `textContent`
of `content.content`, if `textContent.type` is the string `text`, append
`textContent.text` to the accumulator.  Property access `textContent.type`
throws on `null`/`undefined`. -/
def procTextContent (text : String) (textContent : JSVal) : Except JSErr String :=
  match textContent with
  | .null => .error .typeError
  | .undefined => .error .typeError
  | _ =>
    if strictEqStr (getField textContent "type") "text" then
      .ok (text ++ jsToString (getField textContent "text"))
    else
      .ok text

/-- The inner `for..of` loop of `extractDescription`, threading the
accumulated `text`. -/
def procTextContents (text : String) : List JSVal → Except JSErr String
  | [] => .ok text
  | tc :: rest =>
    match procTextContent text tc with
    | .error e => .error e
    | .ok text1 => procTextContents text1 rest

/-- Body of the outer loop of `extractDescription`: if `content.type` is
the string `paragraph` and `content.content` is truthy, run the inner loop
over `content.content` and append a newline. -/
def procContent (text : String) (content : JSVal) : Except JSErr String :=
  match content with
  | .null => .error .typeError
  | .undefined => .error .typeError
  | _ =>
    if strictEqStr (getField content "type") "paragraph" &&
        truthy (getField content "content") then
      match jsIter (getField content "content") with
      | .error e => .error e
      | .ok textContents =>
        match procTextContents text textContents with
        | .error e => .error e
        | .ok text1 => .ok (text1 ++ "\n")
    else
      .ok text

/-- The outer `for..of` loop of `extractDescription`. -/
def procContents (text : String) : List JSVal → Except JSErr String
  | [] => .ok text
  | c :: rest =>
    match procContent text c with
    | .error e => .error e
    | .ok text1 => procContents text1 rest

/-- Embedding of `extractDescription` (src/unnamed/part_001 lines 860-885):
the rich-text (ADF) decoder.  `Except.error` means the JS code throws a
`TypeError`; `Except.ok` is the returned string. -/
def extractDescription (description : JSVal) : Except JSErr String :=
  if truthy description = false then
    .ok "No description"
  else if strictEqStr (getField description "type") "doc" &&
      truthy (getField description "content") then
    match jsIter (getField description "content") with
    | .error e => .error e
    | .ok contents =>
      match procContents "" contents with
      | .error e => .error e
      | .ok text =>
        let trimmed := jsTrim text
        .ok (if trimmed == "" then "No description" else trimmed)
  else
    match description with
    | .str s => .ok s
    | _ => .ok "No description"

/-- The Atlassian-Document-Format document the handlers build around a
description/comment string: one `doc` holding one `paragraph` holding one
`text` node (src/unnamed/part_001 lines 929-944, 1001-1015, 1080-1095).
This is the rich-text encoder. -/
def adfDoc (text : String) : JSVal :=
  .obj
    [("type", .str "doc"),
     ("version", .num 1),
     ("content", .arr
       [.obj
         [("type", .str "paragraph"),
          ("content", .arr
            [.obj [("type", .str "text"), ("text", .str text)]])]])]

/-- One allowed priority value from the create-metadata response
(`priorityField.allowedValues[i]`): display name and internal id. -/
structure PriorityValue where
  name : String
  id : String
deriving Repr, DecidableEq

/-- The `priority` field definition on an issue type in the create-metadata
response; `allowedValues` may be absent (the JS code falls back to `[]`). -/
structure PriorityField where
  allowedValues : Option (List PriorityValue)
deriving Repr, DecidableEq

/-- One issue type from the create-metadata response
(`projectMeta.issuetypes[i]`): display name, internal id, and the optional
`priority` field definition (`type.fields.priority`). -/
structure IssueTypeMeta where
  name : String
  id : String
  priorityField : Option PriorityField
deriving Repr, DecidableEq

/-- The create-metadata fetched for the project
(`projectMetaResponse.data.projects[0]`). -/
structure ProjectMeta where
  issuetypes : List IssueTypeMeta
deriving Repr, DecidableEq

/-- Arguments of the `jira_create_issue` tool.  `none` is an absent
argument; the JS destructuring defaults (`description` to the empty string,
`issueType` to the Korean word `작업`, `priority` to `Medium`) are applied
inside `createIssue`, exactly as in the source. -/
structure CreateArgs where
  project : String
  summary : String
  description : Option String := none
  issueType : Option String := none
  priority : Option String := none
  assignee : Option String := none
  labels : Option (List String) := none
deriving Repr, DecidableEq

/-- Embedding of `createIssue` (src/unnamed/part_001 lines 887-991) from
the point where the create-metadata of the project has been fetched (`meta`
is what the remote returned).  The result is the `fields` object of the
`issueData` payload POSTed to `/issue`, as an ordered key/value list —
`Except.error msg` is the message of the `Error` thrown before any POST. -/
def createIssue (args : CreateArgs) (meta : ProjectMeta) : Except String (List (String × JSVal)) :=
  let description := args.description.getD ""
  let issueType := args.issueType.getD "작업"
  let priority := args.priority.getD "Medium"
  match meta.issuetypes.find? (fun t => jsToLower t.name == jsToLower issueType) with
  | none =>
    let availableTypes := String.intercalate ", " (meta.issuetypes.map (fun t => t.name))
    .error ("Issue type \"" ++ issueType ++ "\" not found. Available types: " ++ availableTypes)
  | some issueTypeObj =>
    let fields :=
      [("project", JSVal.obj [("key", JSVal.str args.project)]),
       ("summary", JSVal.str args.summary),
       ("issuetype", JSVal.obj [("id", JSVal.str issueTypeObj.id)])]
    let fields :=
      if description != "" then fields ++ [("description", adfDoc description)]
      else fields
    let fields :=
      match issueTypeObj.priorityField with
      | some priorityField =>
        if priority != "" then
          let allowedPriorities := priorityField.allowedValues.getD []
          match allowedPriorities.find? (fun p => jsToLower p.name == jsToLower priority) with
          | some priorityObj => fields ++ [("priority", JSVal.obj [("id", JSVal.str priorityObj.id)])]
          | none => fields
        else fields
      | none => fields
    let fields :=
      match args.assignee with
      | some assignee =>
        if assignee != "" then fields ++ [("assignee", JSVal.obj [("emailAddress", JSVal.str assignee)])]
        else fields
      | none => fields
    let fields :=
      match args.labels with
      | some labels => fields ++ [("labels", JSVal.arr (labels.map JSVal.str))]
      | none => fields
    .ok fields

/-- The success text `createIssue` returns after the POST succeeds
(src/unnamed/part_001 lines 978-990); `issueKey` comes from the remote
response and `baseUrl` is `this.jiraConfig.url`.  Note it interpolates the
argument strings `priority` and `issueType` of the caller (after destructuring
defaults), not the resolved values. -/
def createSuccessText (args : CreateArgs) (issueKey baseUrl : String) : String :=
  "✅ Successfully created issue: **" ++ issueKey ++ "**\n" ++
  "Summary: " ++ args.summary ++ "\n" ++
  "Type: " ++ args.issueType.getD "작업" ++ "\n" ++
  "Priority: " ++ args.priority.getD "Medium" ++ "\n" ++
  "Project: " ++ args.project ++ "\n" ++
  "URL: " ++ baseUrl ++ "/browse/" ++ issueKey

/-- Arguments of the `jira_update_issue` tool; `none` is an absent argument. -/
structure UpdateArgs where
  issueKey : String
  summary : Option String := none
  description : Option String := none
  assignee : Option String := none
  priority : Option String := none
  labels : Option (List String) := none
deriving Repr, DecidableEq

/-- Truthiness of an optional JS string argument (absent ⇒ `undefined` ⇒
falsy; present empty string ⇒ falsy). -/
def optStrTruthy : Option String → Bool
  | none => false
  | some s => s != ""

/-- The `updateData.fields` object built by `updateIssue`
(src/unnamed/part_001 lines 993-1028), as an ordered key/value list.
Each `if` guard in the source is JS truthiness on the argument. -/
def updateIssueFields (args : UpdateArgs) : List (String × JSVal) :=
  let fields : List (String × JSVal) := []
  let fields :=
    match args.summary with
    | some summary => if summary != "" then fields ++ [("summary", JSVal.str summary)] else fields
    | none => fields
  let fields :=
    match args.description with
    | some description =>
      if description != "" then fields ++ [("description", adfDoc description)] else fields
    | none => fields
  let fields :=
    match args.assignee with
    | some assignee =>
      if assignee != "" then fields ++ [("assignee", JSVal.obj [("emailAddress", JSVal.str assignee)])]
      else fields
    | none => fields
  let fields :=
    match args.priority with
    | some priority =>
      if priority != "" then fields ++ [("priority", JSVal.obj [("name", JSVal.str priority)])]
      else fields
    | none => fields
  let fields :=
    match args.labels with
    | some labels => fields ++ [("labels", JSVal.arr (labels.map JSVal.str))]
    | none => fields
  fields

/-- Whether `updateIssue` performs the remote PUT at all: the source guards
it with a check that `updateData.fields` has at least one key
(src/unnamed/part_001 lines 1031-1033). -/
def updateIssuePerformsWrite (args : UpdateArgs) : Bool :=
  (updateIssueFields args).length > 0

/-- The success text `updateIssue` returns unconditionally
(src/unnamed/part_001 lines 1035-1043). -/
def updateSuccessText (args : UpdateArgs) (baseUrl : String) : String :=
  "✅ Successfully updated issue: **" ++ args.issueKey ++ "**\n" ++
  "URL: " ++ baseUrl ++ "/browse/" ++ args.issueKey

/-- One transition from the `GET /issue/{key}/transitions` response:
internal id, transition name, and destination-status name (`t.to.name`). -/
structure TransitionMeta where
  id : String
  name : String
  toName : String
deriving Repr, DecidableEq

/-- Embedding of `transitionIssue` (src/unnamed/part_001 lines 1046-1074)
from the point where the available transitions of the issue have been
fetched.
`Except.ok id` means the transition with that internal id is POSTed
(payload `{transition: {id}}`); `Except.error msg` is the message of the
`Error` thrown instead, before any POST. -/
def transitionIssue (status : String) (transitions : List TransitionMeta) : Except String String :=
  match transitions.find? (fun t => jsToLower t.toName == jsToLower status) with
  | none =>
    let availableStatuses := String.intercalate ", " (transitions.map (fun t => t.toName))
    .error ("Status \"" ++ status ++ "\" not available. Available statuses: " ++ availableStatuses)
  | some transition => .ok transition.id

/-- Arguments of the `jira_get_project_issues` tool; `none` is an absent
argument (`maxResults` defaults to 50 by destructuring). -/
structure ProjectIssuesArgs where
  projectKey : String
  maxResults : Option Int := none
  status : Option String := none
deriving Repr, DecidableEq

/-- The JQL string synthesized by `getProjectIssues`
(src/unnamed/part_001 lines 1135-1139); the `status` guard in the source is
JS truthiness, so an absent status and an empty-string status both skip the
clause. -/
def getProjectIssuesJql (args : ProjectIssuesArgs) : String :=
  let jql := "project = " ++ args.projectKey
  let jql :=
    match args.status with
    | some status => if status != "" then jql ++ " AND status = \"" ++ status ++ "\"" else jql
    | none => jql
  jql ++ " ORDER BY created DESC"

/-- The pair of arguments `getProjectIssues` passes on when it delegates to
`searchIssues` (src/unnamed/part_001 line 1141). -/
def getProjectIssuesDelegation (args : ProjectIssuesArgs) : String × Int :=
  (getProjectIssuesJql args, args.maxResults.getD 50)

/-- Unfolding of `jsTrimList` through `List.rdropWhile`. -/
lemma jsTrimList_eq_rdrop (l : List Char) :
    jsTrimList l = List.rdropWhile jsWhitespace (l.dropWhile jsWhitespace) := rfl

/-- A list fixed by trimming is fixed by each one-sided trim. -/
lemma trim_fixed_parts (l : List Char) (h : jsTrimList l = l) :
    l.dropWhile jsWhitespace = l ∧ List.rdropWhile jsWhitespace l = l := by
  have h1 : (l.dropWhile jsWhitespace).length ≤ l.length :=
    (List.dropWhile_suffix _).sublist.length_le
  have h2 : (jsTrimList l).length ≤ (l.dropWhile jsWhitespace).length := by
    rw [jsTrimList_eq_rdrop]
    exact (List.rdropWhile_prefix _ _).sublist.length_le
  have hlen : (l.dropWhile jsWhitespace).length = l.length := by
    have := congrArg List.length h
    omega
  have hd : l.dropWhile jsWhitespace = l :=
    (List.dropWhile_suffix _).eq_of_length hlen
  refine ⟨hd, ?_⟩
  rw [jsTrimList_eq_rdrop, hd] at h
  exact h

/-- Appending a newline to a non-empty trim-fixed list and trimming gives
the list back. -/
lemma jsTrimList_append_newline (l : List Char) (hne : l ≠ []) (h : jsTrimList l = l) :
    jsTrimList (l ++ ['\n']) = l := by
  obtain ⟨hd, hr⟩ := trim_fixed_parts l h
  rw [jsTrimList_eq_rdrop]
  have hdrop : (l ++ ['\n']).dropWhile jsWhitespace = l ++ ['\n'] := by
    cases l with
    | nil => exact absurd rfl hne
    | cons c cs =>
      have hc : jsWhitespace c = false := by
        cases hws : jsWhitespace c with
        | false => rfl
        | true =>
          exfalso
          rw [List.dropWhile_cons, hws, if_pos rfl] at hd
          have hle : (cs.dropWhile jsWhitespace).length ≤ cs.length :=
            (List.dropWhile_suffix _).sublist.length_le
          have := congrArg List.length hd
          simp at this
          omega
      rw [List.cons_append, List.dropWhile_cons, hc]
      simp
  rw [hdrop, List.rdropWhile_concat_pos _ _ '\n' (by decide), hr]

/-- A non-empty string has a non-empty character list. -/
lemma string_data_ne (s : String) (h : s ≠ "") : s.data ≠ [] := by
  cases s with
  | mk l =>
    intro hl
    exact h (by rw [show l = [] from hl])

/-- String-level version of `jsTrimList_append_newline`. -/
lemma jsTrim_append_newline (s : String) (hne : s ≠ "") (ht : jsTrim s = s) :
    jsTrim (s ++ "\n") = s := by
  have htl : jsTrimList s.data = s.data := congrArg String.data ht
  show String.mk (jsTrimList (s ++ "\n").data) = s
  have hd : (s ++ "\n").data = s.data ++ ['\n'] := rfl
  rw [hd, jsTrimList_append_newline s.data (string_data_ne s hne) htl]

/-- The decoder returns a non-empty plain string unchanged. -/
lemma extractDescription_str_ne (s : String) (h : s ≠ "") :
    extractDescription (.str s) = .ok s := by
  unfold extractDescription
  simp [truthy, getField, strictEqStr, h]

/-- A content entry that is neither `null` nor `undefined` nor
paragraph-typed leaves the outer-loop accumulator unchanged. -/
lemma procContent_skip (text : String) (c : JSVal) (h1 : c ≠ .null) (h2 : c ≠ .undefined)
    (h3 : strictEqStr (getField c "type") "paragraph" = false) :
    procContent text c = .ok text := by
  cases c <;> first
    | exact absurd rfl h2
    | exact absurd rfl h1
    | simp [procContent, h3]

/-- The outer loop over paragraph-free well-formed content is the identity
on the accumulator. -/
lemma procContents_skip (contents : List JSVal) (text : String)
    (h : ∀ c ∈ contents, c ≠ .null ∧ c ≠ .undefined ∧
      strictEqStr (getField c "type") "paragraph" = false) :
    procContents text contents = .ok text := by
  induction contents generalizing text with
  | nil => rfl
  | cons c rest ih =>
    obtain ⟨h1, h2, h3⟩ := h c (List.mem_cons_self _ _)
    rw [procContents, procContent_skip text c h1 h2 h3]
    exact ih text (fun d hd => h d (List.mem_cons_of_mem _ hd))

/-- Decoding a document with no paragraph entries yields the fallback. -/
lemma extractDescription_doc_no_paragraph (contents : List JSVal)
    (h : ∀ c ∈ contents, c ≠ .null ∧ c ≠ .undefined ∧
      strictEqStr (getField c "type") "paragraph" = false) :
    extractDescription (.obj [("type", .str "doc"), ("content", .arr contents)]) =
      .ok "No description" := by
  unfold extractDescription
  simp [truthy, getField, strictEqStr, jsIter, procContents_skip contents "" h,
    show jsTrim "" = "" from rfl]

/-- If no element of either list satisfies the predicate, neither does any
element of their concatenation. -/
lemma find?_append_none {α : Type} (p : α → Bool) (l1 l2 : List α)
    (h1 : l1.find? p = none) (h2 : l2.find? p = none) : (l1 ++ l2).find? p = none := by
  rw [List.find?_eq_none] at h1 h2 ⊢
  intro x hx
  rcases List.mem_append.mp hx with h | h
  · exact h1 x h
  · exact h2 x h

/-- Concatenation of strings is associative. -/
lemma string_append_assoc (a b c : String) : a ++ b ++ c = a ++ (b ++ c) := by
  apply congrArg String.mk
  exact List.append_assoc a.data b.data c.data

/-- C1: for `create_issue` called with project `PROJ`, summary
`Fix login bug` and issue type `Bug`, when the case-insensitive issue-type
lookup in the fetched catalog resolves to the entry named `Bug` with
internal id 10004 and no declared priority field, the `fields` payload
submitted to the remote create endpoint is exactly the three-key object
`project = {key: PROJ}`, `summary = Fix login bug`,
`issuetype = {id: 10004}` — in particular it has no `priority` key and,
the description argument being absent, no `description` key. -/
theorem createIssue_bug_scenario_payload_exact (meta : ProjectMeta)
    (h : meta.issuetypes.find? (fun t => jsToLower t.name == jsToLower "Bug") =
      some ⟨"Bug", "10004", none⟩) :
    createIssue { project := "PROJ", summary := "Fix login bug", issueType := some "Bug" } meta =
      .ok [("project", .obj [("key", .str "PROJ")]),
           ("summary", .str "Fix login bug"),
           ("issuetype", .obj [("id", .str "10004")])] := by
  simp [createIssue, h]

/-- Witness for C1 on a concrete two-entry catalog. -/
theorem createIssue_bug_scenario_payload_exact_witness :
    createIssue { project := "PROJ", summary := "Fix login bug", issueType := some "Bug" }
      ⟨[⟨"Bug", "10004", none⟩, ⟨"Task", "10001", none⟩]⟩ =
      .ok [("project", .obj [("key", .str "PROJ")]),
           ("summary", .str "Fix login bug"),
           ("issuetype", .obj [("id", .str "10004")])] :=
  createIssue_bug_scenario_payload_exact
    ⟨[⟨"Bug", "10004", none⟩, ⟨"Task", "10001", none⟩]⟩ (by decide)

/-- C2: when the requested issue-type name has no case-insensitive exact
match among the issue types fetched for the project, `create_issue` throws
before any remote creation is attempted (the embedded result is an error,
so no payload is ever submitted), and the message carries the requested
name together with the comma-joined full list of available type names. -/
theorem createIssue_unknown_issue_type_rejected (args : CreateArgs) (meta : ProjectMeta)
    (h : ∀ t ∈ meta.issuetypes, jsToLower t.name ≠ jsToLower (args.issueType.getD "작업")) :
    createIssue args meta = .error ("Issue type \"" ++ args.issueType.getD "작업" ++
      "\" not found. Available types: " ++
      String.intercalate ", " (meta.issuetypes.map (fun t => t.name))) := by
  have hf : meta.issuetypes.find?
      (fun t => jsToLower t.name == jsToLower (args.issueType.getD "작업")) = none :=
    List.find?_eq_none.mpr (fun t ht => by simp [h t ht])
  simp [createIssue, hf]

/-- Witness for C2: requesting type `Epic` against a catalog holding only
`Bug` and `Task`. -/
theorem createIssue_unknown_issue_type_rejected_witness :
    createIssue { project := "PROJ", summary := "s", issueType := some "Epic" }
      ⟨[⟨"Bug", "10004", none⟩, ⟨"Task", "10001", none⟩]⟩ =
      .error "Issue type \"Epic\" not found. Available types: Bug, Task" :=
  createIssue_unknown_issue_type_rejected
    { project := "PROJ", summary := "s", issueType := some "Epic" }
    ⟨[⟨"Bug", "10004", none⟩, ⟨"Task", "10001", none⟩]⟩ (by decide)

/-- C3: once the issue type resolves, `create_issue` always succeeds —
priority resolution never throws; if the resolved type declares no priority
field, or the requested priority name has no case-insensitive match in the
allowed set, the submitted payload simply has no `priority` key; and the
success text is a fixed template over the caller-supplied argument strings
(it echoes the input priority string and cannot claim the priority was
applied, since it is independent of the resolution outcome). -/
theorem createIssue_priority_best_effort (args : CreateArgs) (meta : ProjectMeta)
    (issueTypeObj : IssueTypeMeta)
    (hfind : meta.issuetypes.find?
      (fun t => jsToLower t.name == jsToLower (args.issueType.getD "작업")) = some issueTypeObj) :
    ∃ fields, createIssue args meta = .ok fields ∧
      ((issueTypeObj.priorityField = none ∨
        ∃ pf, issueTypeObj.priorityField = some pf ∧
          ∀ p ∈ pf.allowedValues.getD [],
            jsToLower p.name ≠ jsToLower (args.priority.getD "Medium")) →
        fields.find? (fun kv => kv.1 == "priority") = none) ∧
      (∀ issueKey baseUrl, createSuccessText args issueKey baseUrl =
        "✅ Successfully created issue: **" ++ issueKey ++ "**\n" ++
        "Summary: " ++ args.summary ++ "\n" ++
        "Type: " ++ args.issueType.getD "작업" ++ "\n" ++
        "Priority: " ++ args.priority.getD "Medium" ++ "\n" ++
        "Project: " ++ args.project ++ "\n" ++
        "URL: " ++ baseUrl ++ "/browse/" ++ issueKey) := by
  simp only [createIssue, hfind]
  refine ⟨_, rfl, ?_, fun issueKey baseUrl => rfl⟩
  intro hpr
  rcases hpr with hnone | ⟨pf, hpf, hall⟩
  · simp only [hnone]
    repeat' split
    all_goals
      repeat' apply find?_append_none
      all_goals simp [List.find?]
  · have hfp : (pf.allowedValues.getD []).find?
        (fun p => jsToLower p.name == jsToLower (args.priority.getD "Medium")) = none :=
      List.find?_eq_none.mpr (fun p hp => by simp [hall p hp])
    simp only [hpf, hfp]
    repeat' split
    all_goals
      repeat' apply find?_append_none
      all_goals simp [List.find?]

/-- Witness for C3: priority `Critical` against a type whose allowed set
holds only `High`; creation succeeds and omits the priority key. -/
theorem createIssue_priority_best_effort_witness :
    ∃ fields, createIssue
        { project := "PROJ", summary := "s", issueType := some "Bug",
          priority := some "Critical" }
        ⟨[⟨"Bug", "10004", some ⟨some [⟨"High", "2"⟩]⟩⟩]⟩ = .ok fields ∧
      (((⟨"Bug", "10004", some ⟨some [⟨"High", "2"⟩]⟩⟩ : IssueTypeMeta).priorityField = none ∨
        ∃ pf, (⟨"Bug", "10004", some ⟨some [⟨"High", "2"⟩]⟩⟩ : IssueTypeMeta).priorityField =
            some pf ∧
          ∀ p ∈ pf.allowedValues.getD [],
            jsToLower p.name ≠ jsToLower ((some "Critical").getD "Medium")) →
        fields.find? (fun kv => kv.1 == "priority") = none) ∧
      (∀ issueKey baseUrl, createSuccessText
          { project := "PROJ", summary := "s", issueType := some "Bug",
            priority := some "Critical" } issueKey baseUrl =
        "✅ Successfully created issue: **" ++ issueKey ++ "**\n" ++
        "Summary: " ++ "s" ++ "\n" ++
        "Type: " ++ (some "Bug").getD "작업" ++ "\n" ++
        "Priority: " ++ (some "Critical").getD "Medium" ++ "\n" ++
        "Project: " ++ "PROJ" ++ "\n" ++
        "URL: " ++ baseUrl ++ "/browse/" ++ issueKey) :=
  createIssue_priority_best_effort
    { project := "PROJ", summary := "s", issueType := some "Bug",
      priority := some "Critical" }
    ⟨[⟨"Bug", "10004", some ⟨some [⟨"High", "2"⟩]⟩⟩]⟩
    ⟨"Bug", "10004", some ⟨some [⟨"High", "2"⟩]⟩⟩ (by decide)

/-- C4: when the requested status has no case-insensitive exact match among
the destination-status names of the fetched transitions, `transition_issue`
throws without submitting any transition (the embedded result is an error),
and the message carries the requested name and the comma-joined list of the
destination names that are currently reachable. -/
theorem transitionIssue_status_not_available_rejected (status : String)
    (transitions : List TransitionMeta)
    (h : ∀ t ∈ transitions, jsToLower t.toName ≠ jsToLower status) :
    transitionIssue status transitions =
      .error ("Status \"" ++ status ++ "\" not available. Available statuses: " ++
        String.intercalate ", " (transitions.map (fun t => t.toName))) := by
  have hf : transitions.find? (fun t => jsToLower t.toName == jsToLower status) = none :=
    List.find?_eq_none.mpr (fun t ht => by simp [h t ht])
  simp [transitionIssue, hf]

/-- Witness for C4: requesting `Blocked` when only `Done` and `In Progress`
are reachable. -/
theorem transitionIssue_status_not_available_rejected_witness :
    transitionIssue "Blocked" [⟨"5", "Do it", "Done"⟩, ⟨"7", "Alt", "In Progress"⟩] =
      .error "Status \"Blocked\" not available. Available statuses: Done, In Progress" :=
  transitionIssue_status_not_available_rejected "Blocked"
    [⟨"5", "Do it", "Done"⟩, ⟨"7", "Alt", "In Progress"⟩] (by decide)

/-- C5: `update_issue` places only caller-supplied fields into the patch
payload (an absent argument never contributes its key), with all five
optional fields absent the payload is empty and no remote write is
performed, and the returned text is the fixed success template. -/
theorem updateIssue_only_supplied_fields_no_op (args : UpdateArgs) :
    (args.summary = none ∧ args.description = none ∧ args.assignee = none ∧
        args.priority = none ∧ args.labels = none →
      updateIssueFields args = [] ∧ updateIssuePerformsWrite args = false) ∧
    (args.summary = none →
      (updateIssueFields args).find? (fun kv => kv.1 == "summary") = none) ∧
    (args.description = none →
      (updateIssueFields args).find? (fun kv => kv.1 == "description") = none) ∧
    (args.assignee = none →
      (updateIssueFields args).find? (fun kv => kv.1 == "assignee") = none) ∧
    (args.priority = none →
      (updateIssueFields args).find? (fun kv => kv.1 == "priority") = none) ∧
    (args.labels = none →
      (updateIssueFields args).find? (fun kv => kv.1 == "labels") = none) ∧
    (∀ baseUrl, updateSuccessText args baseUrl =
      "✅ Successfully updated issue: **" ++ args.issueKey ++ "**\n" ++
      "URL: " ++ baseUrl ++ "/browse/" ++ args.issueKey) := by
  refine ⟨?_, ?_, ?_, ?_, ?_, ?_, fun baseUrl => rfl⟩
  · rintro ⟨h1, h2, h3, h4, h5⟩
    simp [updateIssueFields, updateIssuePerformsWrite, h1, h2, h3, h4, h5]
  all_goals
    intro h
    simp only [updateIssueFields, h]
    repeat' split
    all_goals
      repeat' apply find?_append_none
      all_goals simp [List.find?]

/-- Witness for C5: `update_issue` called with only an issue key builds an
empty patch and performs no remote write. -/
theorem updateIssue_only_supplied_fields_no_op_witness :
    updateIssueFields { issueKey := "PROJ-123" } = [] ∧
    updateIssuePerformsWrite { issueKey := "PROJ-123" } = false :=
  (updateIssue_only_supplied_fields_no_op { issueKey := "PROJ-123" }).1
    ⟨rfl, rfl, rfl, rfl, rfl⟩

/-- Counterexample to C6 as stated: for the non-empty single-line input
made of a space followed by `a`, decoding the encoded document returns the
trimmed string `a`, not the original — the decoder ends with a trim, so
round-tripping fails on any input with leading or trailing whitespace. -/
theorem decode_encode_leading_space_cex :
    extractDescription (adfDoc " a") = .ok "a" ∧ (" a" : String) ≠ "a" :=
  ⟨rfl, by decide⟩

/-- C6 amended: for every non-empty single-line plain-text string with no
leading or trailing whitespace (i.e. fixed by trimming), decoding the
rich-text document produced by encoding it yields the string again. -/
theorem decode_encode_roundtrip_trimmed (s : String) (hne : s ≠ "")
    (_hline : '\n' ∉ s.data) (ht : jsTrim s = s) :
    extractDescription (adfDoc s) = .ok s := by
  have step : extractDescription (adfDoc s) =
      .ok (if jsTrim (s ++ "\n") == "" then "No description" else jsTrim (s ++ "\n")) := rfl
  rw [step, jsTrim_append_newline s hne ht]
  have hb : (s == "") = false := beq_eq_false_iff_ne.mpr hne
  simp [hb]

/-- Witness for amended C6 at the string `Fix login bug`. -/
theorem decode_encode_roundtrip_trimmed_witness :
    extractDescription (adfDoc "Fix login bug") = .ok "Fix login bug" :=
  decode_encode_roundtrip_trimmed "Fix login bug" (by decide) (by decide) (by decide)

/-- Counterexample to C7 as stated: the decoder is not total on every
malformed shape — a document whose `content` property is the truthy
non-iterable number 42 makes the `for..of` loop throw a `TypeError`. -/
theorem extractDescription_nonIterable_throws_cex :
    extractDescription (.obj [("type", .str "doc"), ("content", .num 42)]) =
      .error .typeError := rfl

/-- C7 amended: on the shapes the claim enumerates the decoder does not
throw and returns the original string or the fallback: `null`/absent input
and the empty string give the fallback, any other plain string is returned
unchanged, and a `doc` whose content entries are non-null, non-undefined
values with no `paragraph` type (in particular an empty document) gives the
fallback; totality fails only on malformed shapes whose `content` is a
truthy non-iterable or whose content list holds `null`/`undefined`. -/
theorem extractDescription_listed_shapes_total :
    extractDescription .null = .ok "No description" ∧
    extractDescription .undefined = .ok "No description" ∧
    (∀ s : String, extractDescription (.str s) = .ok s ∨
      extractDescription (.str s) = .ok "No description") ∧
    (∀ contents : List JSVal,
      (∀ c ∈ contents, c ≠ .null ∧ c ≠ .undefined ∧
        strictEqStr (getField c "type") "paragraph" = false) →
      extractDescription (.obj [("type", .str "doc"), ("content", .arr contents)]) =
        .ok "No description") := by
  refine ⟨rfl, rfl, ?_, extractDescription_doc_no_paragraph⟩
  intro s
  by_cases h : s = ""
  · subst h
    exact Or.inr rfl
  · exact Or.inl (extractDescription_str_ne s h)

/-- Witness for amended C7: a document holding one non-paragraph node
decodes to the fallback without throwing. -/
theorem extractDescription_listed_shapes_total_witness :
    extractDescription (.obj [("type", .str "doc"),
      ("content", .arr [.obj [("type", .str "bulletList")]])]) = .ok "No description" :=
  extractDescription_listed_shapes_total.2.2.2 [.obj [("type", .str "bulletList")]]
    (by
      intro c hc
      rw [List.mem_singleton] at hc
      subst hc
      exact ⟨by simp, by simp, rfl⟩)

/-- Counterexample to C8 as stated: the empty string is a plain-string
input, but the decoder returns the fallback `No description` for it (the
falsiness guard fires before the string case), not the string unchanged. -/
theorem extractDescription_empty_string_cex :
    extractDescription (.str "") = .ok "No description" ∧
      ("No description" : String) ≠ "" :=
  ⟨rfl, by decide⟩

/-- C8 amended: every non-empty plain-string input is returned unchanged
by the decoder; the empty string instead yields the fallback. -/
theorem extractDescription_plain_string_identity (s : String) (h : s ≠ "") :
    extractDescription (.str s) = .ok s :=
  extractDescription_str_ne s h

/-- Witness for amended C8 at a concrete plain string. -/
theorem extractDescription_plain_string_identity_witness :
    extractDescription (.str "hello world") = .ok "hello world" :=
  extractDescription_plain_string_identity "hello world" (by decide)

/-- Counterexample to C9 as stated: a supplied but empty status string is
skipped by the truthiness guard, so the synthesized JQL has no status
clause instead of the claimed one with an empty quoted value. -/
theorem getProjectIssues_empty_status_cex :
    getProjectIssuesJql { projectKey := "PROJ", status := some "" } =
      "project = PROJ ORDER BY created DESC" ∧
    "project = PROJ ORDER BY created DESC" ≠
      "project = PROJ AND status = \"\" ORDER BY created DESC" :=
  ⟨rfl, by decide⟩

/-- C9 amended: the synthesized JQL is exactly
`project = KEY AND status = "STATUS" ORDER BY created DESC` when a
non-empty status is supplied and exactly
`project = KEY ORDER BY created DESC` when the status is absent or empty;
in particular for project `PROJ` and status `Done` it is exactly
`project = PROJ AND status = "Done" ORDER BY created DESC`; and the call
delegates to `search_issues` with that string and the given `maxResults`
(defaulted to 50 when absent). -/
theorem getProjectIssues_jql_shape (args : ProjectIssuesArgs) :
    (∀ s, args.status = some s → s ≠ "" →
      getProjectIssuesJql args =
        "project = " ++ args.projectKey ++ " AND status = \"" ++ s ++
          "\" ORDER BY created DESC") ∧
    (args.status = none ∨ args.status = some "" →
      getProjectIssuesJql args = "project = " ++ args.projectKey ++ " ORDER BY created DESC") ∧
    getProjectIssuesDelegation args = (getProjectIssuesJql args, args.maxResults.getD 50) ∧
    getProjectIssuesJql { projectKey := "PROJ", status := some "Done" } =
      "project = PROJ AND status = \"Done\" ORDER BY created DESC" := by
  refine ⟨?_, ?_, rfl, rfl⟩
  · intro s hs hne
    simp [getProjectIssuesJql, hs, hne, string_append_assoc]
  · rintro (hs | hs) <;> simp [getProjectIssuesJql, hs]

/-- Witness for amended C9 at project `PROJ`, status `Done`,
maxResults 20. -/
theorem getProjectIssues_jql_shape_witness :
    getProjectIssuesJql { projectKey := "PROJ", maxResults := some 20, status := some "Done" } =
      "project = " ++ "PROJ" ++ " AND status = \"" ++ "Done" ++ "\" ORDER BY created DESC" :=
  (getProjectIssues_jql_shape
    { projectKey := "PROJ", maxResults := some 20, status := some "Done" }).1
    "Done" rfl (by decide)

/-- C10: when several fetched transitions have destination-status names
that case-insensitively match the requested status, `transition_issue`
deterministically applies the first matching transition in the order the
remote returned them, raising no error for the ambiguity. -/
theorem transitionIssue_first_match_deterministic (status : String)
    (pre post : List TransitionMeta) (t : TransitionMeta)
    (hpre : ∀ u ∈ pre, jsToLower u.toName ≠ jsToLower status)
    (ht : jsToLower t.toName = jsToLower status)
    (_hamb : ∃ u ∈ post, jsToLower u.toName = jsToLower status) :
    transitionIssue status (pre ++ t :: post) = .ok t.id := by
  have hf : (pre ++ t :: post).find? (fun u => jsToLower u.toName == jsToLower status) =
      some t := by
    induction pre with
    | nil => simp [List.find?_cons, ht]
    | cons u us ih =>
      have hu : (jsToLower u.toName == jsToLower status) = false := by
        simp [hpre u (List.mem_cons_self _ _)]
      rw [List.cons_append, List.find?_cons, hu]
      exact ih (fun v hv => hpre v (List.mem_cons_of_mem _ hv))
  simp [transitionIssue, hf]

/-- Witness for C10: two transitions both reach a status spelled `Done` up
to case; the first one (id 5) is applied. -/
theorem transitionIssue_first_match_deterministic_witness :
    transitionIssue "done" [⟨"5", "Do it", "Done"⟩, ⟨"7", "Alt", "DONE"⟩] = .ok "5" :=
  transitionIssue_first_match_deterministic "done" [] [⟨"7", "Alt", "DONE"⟩]
    ⟨"5", "Do it", "Done"⟩ (by simp) (by decide)
    ⟨⟨"7", "Alt", "DONE"⟩, List.mem_singleton.mpr rfl, by decide⟩
